import Mathlib

set_option maxHeartbeats 1000000
set_option maxRecDepth 4000

namespace Tinta

/-- Position record from `token.py` (`class Position(NamedTuple)`): a line/column pair. -/
structure Position where
  line : Nat
  column : Nat
deriving DecidableEq, Repr

/-- Token kinds from `token.py` (`class TokenKind(Enum)`). -/
inductive TokenKind
  | STRING
  | IDENTIFIER
  | COMMENT
  | DOT
  | AT_SIGN
  | HASH_SIGN
  | DOLLAR_SIGN
  | ASTERISK
  | COLON
  | SEMICOLON
  | LEFT_BRACE
  | RIGHT_BRACE
  | EOF
deriving DecidableEq, Repr

/-- A dynamically typed Python value as stored in a `Token` dataclass slot.
Python performs no runtime type checking on dataclass fields, so a slot
annotated `position: Position` can in fact hold a `TokenKind` or a `str`. -/
inductive PyVal
  | vkind (k : TokenKind)
  | vstr (s : List Char)
  | vpos (p : Position)
deriving DecidableEq, Repr

/-- The `Token` dataclass from `token.py`, with its declared field order
`(position, kind, value)`.  Fields hold dynamically typed values, as in
Python: nothing forces `kind` to hold a `TokenKind`. -/
structure PyToken where
  position : PyVal
  kind : PyVal
  value : PyVal
deriving DecidableEq, Repr

/-- The runtime effect of the two-positional-argument call `Token(k, v)` in
`lexer.py`: the first argument binds the dataclass's first field `position`,
the second binds `kind`, and `value` takes its default `str()` (empty). -/
def mkToken2 (k : TokenKind) (v : List Char) : PyToken :=
  ⟨PyVal.vkind k, PyVal.vstr v, PyVal.vstr []⟩

/-- One constructor per `raise LexerError(...)` site of `lexer.py`,
carrying the character interpolated into the message where the source
interpolates one. -/
inductive LexErrMsg
  | identStartDigit (c : Option Char)
  | identStartHyphen (c : Option Char)
  | identEndHyphen (c : Option Char)
  | escMissingBackslash (c : Option Char)
  | escUnterminated
  | escInvalid
  | strMissingQuote
  | strUnterminated
  | commentMissingHyphen (c : Option Char)
  | unexpectedChar (c : Option Char)
deriving DecidableEq, Repr

/-- A Python exception escaping a lexer operation: either a `LexerError`
(with the `self._line`, `self._column` captured at the raise site), or the
`TypeError` raised by the one-positional-argument call `Token(kind)` --
the `Token` dataclass in `token.py` has two required fields `position` and
`kind`, so `Token(TokenKind.EOF)` and every `Token(TokenKind.<symbol>)` in
`read_symbol` crash with `TypeError: missing required argument`. -/
inductive PyErr
  | lexer (msg : LexErrMsg) (line column : Nat)
  | typeErrorMissingKind
deriving DecidableEq, Repr

/-- The runtime effect of the one-positional-argument call `Token(k)` in
`lexer.py` (`read_symbol`, `read_next_token` at EOF): a `TypeError`,
because the dataclass field `kind` has no default. -/
def mkToken1 (_k : TokenKind) : Except PyErr PyToken :=
  Except.error PyErr.typeErrorMissingKind

/-- Lexer state from `lexer.py`: `_stream`, `_offset`, `_line`, `_column`.
`_length` is set once to `len(stream)` and never written again, and
`_stream` is never mutated, so `_length` is represented by
`stream.length`. -/
structure Lexer where
  stream : List Char
  offset : Nat
  line : Nat
  column : Nat
deriving DecidableEq, Repr

/-- `Lexer.__init__`: offset 0, line 1, column 1. -/
def initLexer (s : List Char) : Lexer :=
  ⟨s, 0, 1, 1⟩

/-- Python `str.isspace` on a single character: true exactly for the Unicode
whitespace code points (bidirectional classes WS, B, S and category Zs/Zl/Zp):
U+0009..U+000D, U+001C..U+001F, U+0020, U+0085, U+00A0, U+1680,
U+2000..U+200A, U+2028, U+2029, U+202F, U+205F, U+3000. -/
def pyIsspaceChar (c : Char) : Bool :=
  (9 ≤ c.toNat && c.toNat ≤ 13) || (28 ≤ c.toNat && c.toNat ≤ 32) ||
  c.toNat == 133 || c.toNat == 160 || c.toNat == 5760 ||
  (8192 ≤ c.toNat && c.toNat ≤ 8202) || c.toNat == 8232 || c.toNat == 8233 ||
  c.toNat == 8239 || c.toNat == 8287 || c.toNat == 12288

/-- Python `str.isdigit` on a single character: true for characters of
Unicode numeric type Digit or Decimal.  Beyond ASCII this model lists the
code points below U+0700 (the Latin-1 superscripts `¹ ² ³` and the
Arabic-Indic and Extended Arabic-Indic decimal digits); the higher digit
code points are omitted, and no input used in this development contains
them. -/
def pyIsdigitChar (c : Char) : Bool :=
  (48 ≤ c.toNat && c.toNat ≤ 57) ||
  (178 ≤ c.toNat && c.toNat ≤ 179) || c.toNat == 185 ||
  (1632 ≤ c.toNat && c.toNat ≤ 1641) || (1776 ≤ c.toNat && c.toNat ≤ 1785)

/-- A "character or empty string" value of the Python source (`peek_char`
and friends return `''` past the end); `none` stands for `''`. -/
abbrev PyChar := Option Char

/-- `Lexer.is_ascii_letter`: `char != '' and char in string.ascii_letters`. -/
def is_ascii_letter (c : PyChar) : Bool :=
  match c with
  | none => false
  | some c =>
      (65 ≤ c.toNat && c.toNat ≤ 90) || (97 ≤ c.toNat && c.toNat ≤ 122)

/-- `Lexer.is_digit`: `char.isdigit()` (`''.isdigit()` is `False`). -/
def is_digit (c : PyChar) : Bool :=
  match c with
  | none => false
  | some c => pyIsdigitChar c

/-- `Lexer.is_ascii_letter_or_underscore`. -/
def is_ascii_letter_or_underscore (c : PyChar) : Bool :=
  is_ascii_letter c || c == some '_'

/-- `Lexer.is_ascii_letter_digit_or_underscore`. -/
def is_ascii_letter_digit_or_underscore (c : PyChar) : Bool :=
  is_ascii_letter_or_underscore c || is_digit c

/-- `Lexer.is_ascii_letter_digit_underscore_or_hyphen`. -/
def is_ascii_letter_digit_underscore_or_hyphen (c : PyChar) : Bool :=
  is_ascii_letter_digit_or_underscore c || c == some '-'

/-- `str.isspace` applied to a `peek_char` result (`''.isspace()` is `False`). -/
def py_isspace (c : PyChar) : Bool :=
  match c with
  | none => false
  | some c => pyIsspaceChar c

/-- `Lexer.at_eof`: `self._offset >= self._length`. -/
def at_eof (l : Lexer) : Bool :=
  l.stream.length ≤ l.offset

/-- `Lexer.get_offset`. -/
def get_offset (l : Lexer) : Nat :=
  l.offset

/-- `Lexer.get_position`: the `(self._line, self._column)` tuple. -/
def get_position (l : Lexer) : Nat × Nat :=
  (l.line, l.column)

/-- `Lexer.peek_char`: the character at `_offset`, or `''` past the end. -/
def peek_char (l : Lexer) : PyChar :=
  l.stream.get? l.offset

/-- `Lexer.peek2_char`: the character at `_offset + 1`, or `''` past the end. -/
def peek2_char (l : Lexer) : PyChar :=
  l.stream.get? (l.offset + 1)

/-- `Lexer.pop_char`: advance `_offset` and `_column` by 1 unconditionally;
then, if the character now at `_offset` (in bounds) is a newline, increment
`_line` and reset `_column` to 1. -/
def pop_char (l : Lexer) : Lexer :=
  if l.stream.get? (l.offset + 1) = some '\n' then
    ⟨l.stream, l.offset + 1, l.line + 1, 1⟩
  else
    ⟨l.stream, l.offset + 1, l.line, l.column + 1⟩

/-- `Lexer.next_char`: `''` without advancing at end of stream, otherwise
the character at `_offset` followed by a `pop_char`. -/
def next_char (l : Lexer) : PyChar × Lexer :=
  match l.stream.get? l.offset with
  | none => (none, l)
  | some c => (some c, pop_char l)

/-- `Lexer.skip_whitespace`: pop characters while not at EOF and the
lookahead satisfies `str.isspace`. -/
def skip_whitespace (l : Lexer) : Lexer :=
  if ¬ at_eof l ∧ py_isspace (peek_char l) then
    skip_whitespace (pop_char l)
  else
    l
termination_by l.stream.length - l.offset
decreasing_by
  simp only [at_eof, decide_eq_true_eq, not_le] at *
  simp only [pop_char]
  split <;> simp <;> omega

theorem pop_char_stream (l : Lexer) : (pop_char l).stream = l.stream := by
  simp only [pop_char]
  split <;> rfl

theorem pop_char_offset (l : Lexer) : (pop_char l).offset = l.offset + 1 := by
  simp only [pop_char]
  split <;> rfl

theorem next_char_of_not_eof (l : Lexer) (h : ¬ at_eof l = true) :
    (next_char l).2 = pop_char l ∧ (next_char l).1 = l.stream.get? l.offset := by
  simp only [at_eof, decide_eq_true_eq, not_le] at h
  simp only [next_char]
  rcases hg : l.stream.get? l.offset with _ | c
  · rw [List.get?_eq_none] at hg
    omega
  · exact ⟨rfl, rfl⟩

theorem next_char_of_eof (l : Lexer) (h : at_eof l = true) :
    next_char l = (none, l) := by
  simp only [at_eof, decide_eq_true_eq] at h
  simp only [next_char]
  rcases hg : l.stream.get? l.offset with _ | c
  · rfl
  · obtain ⟨hlt, -⟩ := List.get?_eq_some.mp hg
    omega

theorem skip_whitespace_stream (l : Lexer) :
    (skip_whitespace l).stream = l.stream := by
  induction l using skip_whitespace.induct with
  | case1 l h ih =>
      rw [skip_whitespace, if_pos h, ih, pop_char_stream]
  | case2 l h =>
      rw [skip_whitespace, if_neg h]

theorem skip_whitespace_offset_le (l : Lexer) :
    l.offset ≤ (skip_whitespace l).offset := by
  induction l using skip_whitespace.induct with
  | case1 l h ih =>
      rw [skip_whitespace, if_pos h]
      have := pop_char_offset l
      omega
  | case2 l h =>
      rw [skip_whitespace, if_neg h]

theorem skip_whitespace_offset_gt (l : Lexer)
    (h : ¬ at_eof l = true) (hs : py_isspace (peek_char l) = true) :
    l.offset < (skip_whitespace l).offset := by
  rw [skip_whitespace, if_pos ⟨h, hs⟩]
  have h1 := skip_whitespace_offset_le (pop_char l)
  have h2 := pop_char_offset l
  omega

/-- `Lexer.read_identifier`: the error checks on the first consumed
character, followed by the scanning loop. -/
def read_identifier_loop (l : Lexer) (chars : List Char) :
    Except PyErr (List Char) × Lexer :=
  if h : at_eof l then (Except.ok chars, l)
  else
    if peek_char l = some '-' then
      if is_ascii_letter_digit_underscore_or_hyphen (peek2_char l) then
        read_identifier_loop (pop_char l) (chars ++ ['-'])
      else
        (Except.error (PyErr.lexer (LexErrMsg.identEndHyphen (peek_char l)) l.line l.column), l)
    else if is_ascii_letter_digit_or_underscore (peek_char l) then
      read_identifier_loop (pop_char l) (chars ++ (peek_char l).toList)
    else
      (Except.ok chars, l)
termination_by l.stream.length - l.offset
decreasing_by
  all_goals
    simp only [at_eof, decide_eq_true_eq, not_le] at h
    rw [pop_char_stream, pop_char_offset]
    omega

/-- `Lexer.read_identifier`. -/
def read_identifier (l : Lexer) : Except PyErr PyToken × Lexer :=
  let r := next_char l
  let l1 := r.2
  if is_digit r.1 then
    (Except.error (PyErr.lexer (LexErrMsg.identStartDigit r.1) l1.line l1.column), l1)
  else if r.1 = some '-' then
    (Except.error (PyErr.lexer (LexErrMsg.identStartHyphen r.1) l1.line l1.column), l1)
  else
    match read_identifier_loop l1 r.1.toList with
    | (Except.ok chars, l2) => (Except.ok (mkToken2 TokenKind.IDENTIFIER chars), l2)
    | (Except.error e, l2) => (Except.error e, l2)

/-- `Lexer.read_escape_char`. -/
def read_escape_char (l : Lexer) : Except PyErr Char × Lexer :=
  let r := next_char l
  let l1 := r.2
  if r.1 ≠ some '\\' then
    (Except.error (PyErr.lexer (LexErrMsg.escMissingBackslash r.1) l1.line l1.column), l1)
  else if at_eof l1 then
    (Except.error (PyErr.lexer LexErrMsg.escUnterminated l1.line l1.column), l1)
  else
    let r2 := next_char l1
    let l2 := r2.2
    if r2.1 = some '\\' then (Except.ok '\\', l2)
    else if r2.1 = some 'n' then (Except.ok '\n', l2)
    else if r2.1 = some 't' then (Except.ok '\t', l2)
    else if r2.1 = some 'r' then (Except.ok '\r', l2)
    else (Except.error (PyErr.lexer LexErrMsg.escInvalid l2.line l2.column), l2)

theorem read_escape_char_ok_advance (l l' : Lexer) (c : Char)
    (h : read_escape_char l = (Except.ok c, l')) :
    l'.stream = l.stream ∧ l'.offset = l.offset + 2 := by
  have hs1 := pop_char_stream l
  have ho1 := pop_char_offset l
  have hs2 := pop_char_stream (pop_char l)
  have ho2 := pop_char_offset (pop_char l)
  rw [read_escape_char] at h
  rcases hg : l.stream.get? l.offset with _ | c0
  · simp only [next_char, hg] at h
    simp at h
  · simp only [next_char, hg] at h
    by_cases hb : c0 = '\\'
    · subst hb
      simp only [ne_eq, not_true_eq_false, reduceIte] at h
      by_cases he1 : at_eof (pop_char l) = true
      · simp only [he1, reduceIte] at h
        simp at h
      · simp only [he1, Bool.false_eq_true, reduceIte] at h
        rcases hg2 : (pop_char l).stream.get? (pop_char l).offset with _ | c2
        · simp only [next_char, hg2] at h
          simp at h
        · simp only [next_char, hg2] at h
          split_ifs at h
          all_goals simp at h
          all_goals
            obtain ⟨-, h2⟩ := h
            subst h2
            exact ⟨by rw [hs2, hs1], by omega⟩
    · simp only [ne_eq, Option.some.injEq, hb, not_false_eq_true, reduceIte] at h
      simp at h

/-- The scanning loop of `Lexer.read_string`. -/
def read_string_loop (l : Lexer) (chars : List Char) :
    Except PyErr (List Char) × Lexer :=
  if h : at_eof l then (Except.ok chars, l)
  else
    if peek_char l = some '"' then (Except.ok chars, l)
    else if peek_char l = some '\\' then
      match he : read_escape_char l with
      | (Except.ok c, l') => read_string_loop l' (chars ++ [c])
      | (Except.error e, l') => (Except.error e, l')
    else
      read_string_loop (pop_char l) (chars ++ (peek_char l).toList)
termination_by l.stream.length - l.offset
decreasing_by
  · obtain ⟨hs, ho⟩ := read_escape_char_ok_advance l l' c he
    simp only [at_eof, decide_eq_true_eq, not_le] at h
    rw [hs, ho]
    omega
  · simp only [at_eof, decide_eq_true_eq, not_le] at h
    rw [pop_char_stream, pop_char_offset]
    omega

/-- `Lexer.read_string`. -/
def read_string (l : Lexer) : Except PyErr PyToken × Lexer :=
  let r := next_char l
  let l1 := r.2
  if r.1 ≠ some '"' then
    (Except.error (PyErr.lexer LexErrMsg.strMissingQuote l1.line l1.column), l1)
  else
    match read_string_loop l1 [] with
    | (Except.error e, l2) => (Except.error e, l2)
    | (Except.ok chars, l2) =>
        if at_eof l2 then
          (Except.error (PyErr.lexer LexErrMsg.strUnterminated l2.line l2.column), l2)
        else
          (Except.ok (mkToken2 TokenKind.STRING chars), pop_char l2)

/-- The scanning loop of `Lexer.read_comment`. -/
def read_comment_loop (l : Lexer) (chars : List Char) : List Char × Lexer :=
  if h : at_eof l then (chars, l)
  else
    if (next_char l).1 = some '\n' then (chars, (next_char l).2)
    else read_comment_loop (next_char l).2 (chars ++ (next_char l).1.toList)
termination_by l.stream.length - l.offset
decreasing_by
  simp only [(next_char_of_not_eof l h).1]
  simp only [at_eof, decide_eq_true_eq, not_le] at h
  rw [pop_char_stream, pop_char_offset]
  omega

/-- `Lexer.read_comment`. -/
def read_comment (l : Lexer) : Except PyErr PyToken × Lexer :=
  let r := next_char l
  let l1 := r.2
  if r.1 ≠ some '-' then
    (Except.error (PyErr.lexer (LexErrMsg.commentMissingHyphen r.1) l1.line l1.column), l1)
  else
    let r2 := next_char l1
    let l2 := r2.2
    if r2.1 ≠ some '-' then
      (Except.error (PyErr.lexer (LexErrMsg.commentMissingHyphen r2.1) l2.line l2.column), l2)
    else
      let r3 := read_comment_loop l2 []
      (Except.ok (mkToken2 TokenKind.COMMENT r3.1), r3.2)

/-- The fixed `Lexer.symbols` list. -/
def symbols : List Char := ['.', '@', '#', '$', '*', ':', ';', '\x7b', '\x7d']

/-- Membership test `lookahead in self.symbols` (false for `''`). -/
def in_symbols (c : PyChar) : Bool :=
  match c with
  | none => false
  | some c => symbols.contains c

/-- `Lexer.read_symbol`: every successful branch executes the
one-positional-argument call `Token(kind)`, which raises `TypeError`. -/
def read_symbol (l : Lexer) : Except PyErr PyToken × Lexer :=
  let r := next_char l
  let l1 := r.2
  if r.1 = some '.' then (mkToken1 TokenKind.DOT, l1)
  else if r.1 = some '@' then (mkToken1 TokenKind.AT_SIGN, l1)
  else if r.1 = some '#' then (mkToken1 TokenKind.HASH_SIGN, l1)
  else if r.1 = some '$' then (mkToken1 TokenKind.DOLLAR_SIGN, l1)
  else if r.1 = some '*' then (mkToken1 TokenKind.ASTERISK, l1)
  else if r.1 = some ':' then (mkToken1 TokenKind.COLON, l1)
  else if r.1 = some ';' then (mkToken1 TokenKind.SEMICOLON, l1)
  else if r.1 = some '\x7b' then (mkToken1 TokenKind.LEFT_BRACE, l1)
  else if r.1 = some '\x7d' then (mkToken1 TokenKind.RIGHT_BRACE, l1)
  else (Except.error (PyErr.lexer (LexErrMsg.unexpectedChar r.1) l1.line l1.column), l1)

/-- `Lexer.read_next_token`: the dispatch entry point.  At end of stream the
source executes `Token(TokenKind.EOF)`, a one-positional-argument call that
raises `TypeError`. -/
def read_next_token (l : Lexer) : Except PyErr PyToken × Lexer :=
  if h : at_eof l then (mkToken1 TokenKind.EOF, l)
  else
    if is_ascii_letter_or_underscore (peek_char l) then read_identifier l
    else if peek_char l = some '-' then read_comment l
    else if peek_char l = some '"' then read_string l
    else if hsp : py_isspace (peek_char l) then read_next_token (skip_whitespace l)
    else if in_symbols (peek_char l) then read_symbol l
    else (Except.error (PyErr.lexer (LexErrMsg.unexpectedChar (peek_char l)) l.line l.column), l)
termination_by l.stream.length - l.offset
decreasing_by
  have h1 := skip_whitespace_offset_gt l h hsp
  have h2 := skip_whitespace_stream l
  simp only [at_eof, decide_eq_true_eq, not_le] at h
  rw [h2]
  omega

/-- Cursor facts preserved by every lexer operation, normal or raising:
the stream is untouched, the offset and the line never decrease, and a
column that was at least 1 stays at least 1. -/
def Progress (l l' : Lexer) : Prop :=
  l'.stream = l.stream ∧ l.offset ≤ l'.offset ∧ l.line ≤ l'.line ∧
    (1 ≤ l.column → 1 ≤ l'.column)

/-- An operation that never pushes the offset past the end of the stream. -/
def Bounded (l l' : Lexer) : Prop :=
  l.offset ≤ l.stream.length → l'.offset ≤ l.stream.length

theorem progress_rfl (l : Lexer) : Progress l l :=
  ⟨rfl, le_refl _, le_refl _, fun h => h⟩

theorem progress_trans {l1 l2 l3 : Lexer}
    (h1 : Progress l1 l2) (h2 : Progress l2 l3) : Progress l1 l3 :=
  ⟨h2.1.trans h1.1, h1.2.1.trans h2.2.1, h1.2.2.1.trans h2.2.2.1,
    fun h => h2.2.2.2 (h1.2.2.2 h)⟩

theorem bounded_rfl (l : Lexer) : Bounded l l := fun h => h

theorem bounded_trans {l1 l2 l3 : Lexer}
    (h1 : Progress l1 l2) (hb1 : Bounded l1 l2) (hb2 : Bounded l2 l3) :
    Bounded l1 l3 := by
  intro h
  have := hb2 (by rw [h1.1]; exact hb1 h)
  rw [h1.1] at this
  exact this

theorem pop_char_progress (l : Lexer) : Progress l (pop_char l) := by
  simp only [Progress, pop_char]
  split <;> refine ⟨rfl, ?_, ?_, fun _ => ?_⟩ <;> simp <;> omega

theorem pop_char_column_ge_one (l : Lexer) : 1 ≤ (pop_char l).column := by
  simp only [pop_char]
  split <;> simp <;> omega

theorem pop_char_bounded_of_not_eof (l : Lexer) (h : ¬ at_eof l = true) :
    Bounded l (pop_char l) := by
  simp only [at_eof, decide_eq_true_eq, not_le] at h
  intro _
  rw [pop_char_offset]
  omega

theorem next_char_progress (l : Lexer) :
    Progress l (next_char l).2 ∧ Bounded l (next_char l).2 := by
  by_cases h : at_eof l = true
  · rw [next_char_of_eof l h]
    exact ⟨progress_rfl l, bounded_rfl l⟩
  · rw [(next_char_of_not_eof l h).1]
    exact ⟨pop_char_progress l, pop_char_bounded_of_not_eof l h⟩

theorem skip_whitespace_progress (l : Lexer) :
    Progress l (skip_whitespace l) ∧ Bounded l (skip_whitespace l) := by
  induction l using skip_whitespace.induct with
  | case1 l h ih =>
      rw [skip_whitespace, if_pos h]
      have hp := pop_char_progress l
      have hb := pop_char_bounded_of_not_eof l (by simpa using h.1)
      exact ⟨progress_trans hp ih.1, bounded_trans hp hb ih.2⟩
  | case2 l h =>
      rw [skip_whitespace, if_neg h]
      exact ⟨progress_rfl l, bounded_rfl l⟩

theorem read_escape_char_state (l : Lexer) :
    (read_escape_char l).2 = (next_char l).2 ∨
    (read_escape_char l).2 = (next_char (next_char l).2).2 := by
  rw [read_escape_char]
  split_ifs
  · simp
  · simp
  · right
    dsimp only
    split_ifs <;> rfl

theorem read_escape_char_progress (l : Lexer) :
    Progress l (read_escape_char l).2 ∧ Bounded l (read_escape_char l).2 := by
  have h1 := next_char_progress l
  have h2 := next_char_progress (next_char l).2
  rcases read_escape_char_state l with h | h <;> rw [h]
  · exact h1
  · exact ⟨progress_trans h1.1 h2.1, bounded_trans h1.1 h1.2 h2.2⟩

theorem read_identifier_loop_progress (l : Lexer) (chars : List Char) :
    Progress l (read_identifier_loop l chars).2 ∧
      Bounded l (read_identifier_loop l chars).2 := by
  induction l, chars using read_identifier_loop.induct with
  | case1 l chars h =>
      rw [read_identifier_loop, dif_pos h]
      exact ⟨progress_rfl l, bounded_rfl l⟩
  | case2 l chars h h1 h2 ih =>
      rw [read_identifier_loop, dif_neg h, if_pos h1, if_pos h2]
      have hp := pop_char_progress l
      have hb := pop_char_bounded_of_not_eof l h
      exact ⟨progress_trans hp ih.1, bounded_trans hp hb ih.2⟩
  | case3 l chars h h1 h2 =>
      rw [read_identifier_loop, dif_neg h, if_pos h1, if_neg h2]
      exact ⟨progress_rfl l, bounded_rfl l⟩
  | case4 l chars h h1 h2 ih =>
      rw [read_identifier_loop, dif_neg h, if_neg h1, if_pos h2]
      have hp := pop_char_progress l
      have hb := pop_char_bounded_of_not_eof l h
      exact ⟨progress_trans hp ih.1, bounded_trans hp hb ih.2⟩
  | case5 l chars h h1 h2 =>
      rw [read_identifier_loop, dif_neg h, if_neg h1, if_neg h2]
      exact ⟨progress_rfl l, bounded_rfl l⟩

theorem read_identifier_progress (l : Lexer) :
    Progress l (read_identifier l).2 ∧ Bounded l (read_identifier l).2 := by
  have h1 := next_char_progress l
  have h2 := read_identifier_loop_progress (next_char l).2 (next_char l).1.toList
  rw [read_identifier]
  split_ifs
  · exact h1
  · exact h1
  · rcases hm : read_identifier_loop (next_char l).2 (next_char l).1.toList with ⟨r, l2⟩
    rw [hm] at h2
    rcases r with e | chars <;>
      exact ⟨progress_trans h1.1 h2.1, bounded_trans h1.1 h1.2 h2.2⟩

theorem read_string_loop_progress (l : Lexer) (chars : List Char) :
    Progress l (read_string_loop l chars).2 ∧
      Bounded l (read_string_loop l chars).2 := by
  induction l, chars using read_string_loop.induct with
  | case1 l chars h =>
      rw [read_string_loop, dif_pos h]
      exact ⟨progress_rfl l, bounded_rfl l⟩
  | case2 l chars h h1 =>
      rw [read_string_loop, dif_neg h, if_pos h1]
      exact ⟨progress_rfl l, bounded_rfl l⟩
  | case3 l chars h h1 h2 c l2 he ih =>
      rw [read_string_loop, dif_neg h, if_neg h1, if_pos h2]
      have hesc := read_escape_char_progress l
      rw [he] at hesc
      split
      · rename_i c2 l3 he2
        rw [he, Prod.mk.injEq] at he2
        obtain ⟨hA, hB⟩ := he2
        injection hA with hA
        subst hA
        subst hB
        exact ⟨progress_trans hesc.1 ih.1, bounded_trans hesc.1 hesc.2 ih.2⟩
      · rename_i e l3 he2
        rw [he, Prod.mk.injEq] at he2
        exact absurd he2.1 (by simp)
  | case4 l chars h h1 h2 e l2 he =>
      rw [read_string_loop, dif_neg h, if_neg h1, if_pos h2]
      have hesc := read_escape_char_progress l
      rw [he] at hesc
      split
      · rename_i c2 l3 he2
        rw [he, Prod.mk.injEq] at he2
        exact absurd he2.1 (by simp)
      · rename_i e2 l3 he2
        rw [he, Prod.mk.injEq] at he2
        obtain ⟨hA, hB⟩ := he2
        subst hB
        exact hesc
  | case5 l chars h h1 h2 ih =>
      rw [read_string_loop, dif_neg h, if_neg h1, if_neg h2]
      have hp := pop_char_progress l
      have hb := pop_char_bounded_of_not_eof l h
      exact ⟨progress_trans hp ih.1, bounded_trans hp hb ih.2⟩

theorem read_string_progress (l : Lexer) :
    Progress l (read_string l).2 ∧ Bounded l (read_string l).2 := by
  have h1 := next_char_progress l
  have h2 := read_string_loop_progress (next_char l).2 []
  rw [read_string]
  split_ifs with hq
  · exact h1
  · rcases hm : read_string_loop (next_char l).2 [] with ⟨r, l2⟩
    rw [hm] at h2
    have hc : Progress l l2 ∧ Bounded l l2 :=
      ⟨progress_trans h1.1 h2.1, bounded_trans h1.1 h1.2 h2.2⟩
    rcases r with e | chars
    · exact hc
    · dsimp only
      split_ifs with he2
      · exact hc
      · have hp := pop_char_progress l2
        have hb := pop_char_bounded_of_not_eof l2 he2
        exact ⟨progress_trans hc.1 hp, bounded_trans hc.1 hc.2 hb⟩

theorem read_comment_loop_progress (l : Lexer) (chars : List Char) :
    Progress l (read_comment_loop l chars).2 ∧
      Bounded l (read_comment_loop l chars).2 := by
  induction l, chars using read_comment_loop.induct with
  | case1 l chars h =>
      rw [read_comment_loop, dif_pos h]
      exact ⟨progress_rfl l, bounded_rfl l⟩
  | case2 l chars h h1 =>
      rw [read_comment_loop, dif_neg h, if_pos h1]
      exact next_char_progress l
  | case3 l chars h h1 ih =>
      rw [read_comment_loop, dif_neg h, if_neg h1]
      have hn := next_char_progress l
      exact ⟨progress_trans hn.1 ih.1, bounded_trans hn.1 hn.2 ih.2⟩

theorem read_comment_progress (l : Lexer) :
    Progress l (read_comment l).2 ∧ Bounded l (read_comment l).2 := by
  have h1 := next_char_progress l
  have h2 := next_char_progress (next_char l).2
  have h12 : Progress l (next_char (next_char l).2).2 ∧
      Bounded l (next_char (next_char l).2).2 :=
    ⟨progress_trans h1.1 h2.1, bounded_trans h1.1 h1.2 h2.2⟩
  have h3 := read_comment_loop_progress (next_char (next_char l).2).2 []
  rw [read_comment]
  dsimp only
  split_ifs
  · exact h1
  · exact h12
  · exact ⟨progress_trans h12.1 h3.1, bounded_trans h12.1 h12.2 h3.2⟩

theorem read_symbol_state (l : Lexer) : (read_symbol l).2 = (next_char l).2 := by
  rw [read_symbol]
  split_ifs <;> rfl

theorem read_symbol_progress (l : Lexer) :
    Progress l (read_symbol l).2 ∧ Bounded l (read_symbol l).2 := by
  rw [read_symbol_state]
  exact next_char_progress l

theorem read_next_token_progress (l : Lexer) :
    Progress l (read_next_token l).2 ∧ Bounded l (read_next_token l).2 := by
  induction l using read_next_token.induct with
  | case1 l h =>
      rw [read_next_token, dif_pos h]
      exact ⟨progress_rfl l, bounded_rfl l⟩
  | case2 l h h1 =>
      rw [read_next_token, dif_neg h, if_pos h1]
      exact read_identifier_progress l
  | case3 l h h1 h2 =>
      rw [read_next_token, dif_neg h, if_neg h1, if_pos h2]
      exact read_comment_progress l
  | case4 l h h1 h2 h3 =>
      rw [read_next_token, dif_neg h, if_neg h1, if_neg h2, if_pos h3]
      exact read_string_progress l
  | case5 l h h1 h2 h3 h4 ih =>
      rw [read_next_token, dif_neg h, if_neg h1, if_neg h2, if_neg h3, dif_pos h4]
      have hs := skip_whitespace_progress l
      exact ⟨progress_trans hs.1 ih.1, bounded_trans hs.1 hs.2 ih.2⟩
  | case6 l h h1 h2 h3 h4 h5 =>
      rw [read_next_token, dif_neg h, if_neg h1, if_neg h2, if_neg h3, dif_neg h4,
        if_pos h5]
      exact read_symbol_progress l
  | case7 l h h1 h2 h3 h4 h5 =>
      rw [read_next_token, dif_neg h, if_neg h1, if_neg h2, if_neg h3, dif_neg h4,
        if_neg h5]
      exact ⟨progress_rfl l, bounded_rfl l⟩

/-- The public cursor-advancing operations of the Lexer, as named by the
spec: the cursor primitives and the construct readers.  Each is applied for
its state effect; a reader that raises still leaves its partial state. -/
inductive LexOp
  | pop
  | next
  | skipws
  | readIdent
  | readEscape
  | readString
  | readComment
  | readSymbol
  | readNext
deriving DecidableEq, Repr

/-- Apply one public operation for its effect on the lexer state. -/
def applyOp : LexOp → Lexer → Lexer
  | LexOp.pop, l => pop_char l
  | LexOp.next, l => (next_char l).2
  | LexOp.skipws, l => skip_whitespace l
  | LexOp.readIdent, l => (read_identifier l).2
  | LexOp.readEscape, l => (read_escape_char l).2
  | LexOp.readString, l => (read_string l).2
  | LexOp.readComment, l => (read_comment l).2
  | LexOp.readSymbol, l => (read_symbol l).2
  | LexOp.readNext, l => (read_next_token l).2

/-- Run a sequence of public operations. -/
def runOps (ops : List LexOp) (l : Lexer) : Lexer :=
  match ops with
  | [] => l
  | op :: rest => runOps rest (applyOp op l)

theorem applyOp_progress (op : LexOp) (l : Lexer) : Progress l (applyOp op l) := by
  cases op with
  | pop => exact pop_char_progress l
  | next => exact (next_char_progress l).1
  | skipws => exact (skip_whitespace_progress l).1
  | readIdent => exact (read_identifier_progress l).1
  | readEscape => exact (read_escape_char_progress l).1
  | readString => exact (read_string_progress l).1
  | readComment => exact (read_comment_progress l).1
  | readSymbol => exact (read_symbol_progress l).1
  | readNext => exact (read_next_token_progress l).1

theorem applyOp_bounded (op : LexOp) (l : Lexer) (h : op ≠ LexOp.pop) :
    Bounded l (applyOp op l) := by
  cases op with
  | pop => exact absurd rfl h
  | next => exact (next_char_progress l).2
  | skipws => exact (skip_whitespace_progress l).2
  | readIdent => exact (read_identifier_progress l).2
  | readEscape => exact (read_escape_char_progress l).2
  | readString => exact (read_string_progress l).2
  | readComment => exact (read_comment_progress l).2
  | readSymbol => exact (read_symbol_progress l).2
  | readNext => exact (read_next_token_progress l).2

theorem runOps_progress (ops : List LexOp) (l : Lexer) :
    Progress l (runOps ops l) := by
  induction ops generalizing l with
  | nil => exact progress_rfl l
  | cons op rest ih =>
      exact progress_trans (applyOp_progress op l) (ih (applyOp op l))

theorem drop_cons_of_index (s : List Char) (n : Nat) (c : Char)
    (h : s.get? n = some c) : s.drop n = c :: s.drop (n + 1) := by
  rw [List.get?_eq_getElem?] at h
  have h1 : (s.drop n).head? = some c := by rw [List.head?_drop]; exact h
  have h2 := List.cons_head?_tail h1
  rw [List.tail_drop] at h2
  exact h2.symm

theorem index_of_drop_cons (s : List Char) (n : Nat) (c : Char) (t : List Char)
    (h : s.drop n = c :: t) : s.get? n = some c := by
  rw [List.get?_eq_getElem?, ← List.head?_drop, h]
  rfl

/-- An ASCII letter or the underscore is not a Python digit. -/
theorem is_digit_eq_false_of_letter_or_underscore (c : Char)
    (h : is_ascii_letter_or_underscore (some c) = true) :
    is_digit (some c) = false := by
  simp only [is_ascii_letter_or_underscore, is_ascii_letter, Bool.or_eq_true,
    Bool.and_eq_true, decide_eq_true_eq, beq_iff_eq, Option.some.injEq] at h
  rw [Bool.eq_false_iff]
  intro hcontra
  simp only [is_digit, pyIsdigitChar, Bool.or_eq_true, Bool.and_eq_true,
    decide_eq_true_eq, beq_iff_eq] at hcontra
  rcases h with (h | h) | h
  · omega
  · omega
  · subst h
    revert hcontra
    decide

/-- An ASCII letter or the underscore is not the hyphen. -/
theorem ne_hyphen_of_letter_or_underscore (c : Char)
    (h : is_ascii_letter_or_underscore (some c) = true) :
    ¬ ((some c : PyChar) = some '-') := by
  simp only [is_ascii_letter_or_underscore, is_ascii_letter, Bool.or_eq_true,
    Bool.and_eq_true, decide_eq_true_eq, beq_iff_eq, Option.some.injEq] at h
  intro hc
  rw [Option.some.injEq] at hc
  subst hc
  revert h
  decide

/-- A tail character of the claim (ASCII letter, ASCII digit, underscore
or hyphen), stated from the words of the spec for claim C8. -/
def identTailChar (c : Char) : Bool :=
  is_ascii_letter (some c) || (48 ≤ c.toNat && c.toNat ≤ 57) || c == '_' || c == '-'

/-- The claim-side condition on the tail of an identifier: every character
is an `identTailChar`, and every hyphen is immediately followed by another
`identTailChar` (so no trailing hyphen). -/
def identTailOk : List Char → Bool
  | [] => true
  | c :: rest =>
      identTailChar c &&
      (if c = '-' then
        (match rest with
         | [] => false
         | d :: _ => identTailChar d)
       else true) &&
      identTailOk rest

/-- The claim-side description of a valid identifier input for claim C8:
nonempty, ASCII letter or underscore first, then a valid tail. -/
def validIdentInput (s : List Char) : Bool :=
  match s with
  | [] => false
  | c :: rest => is_ascii_letter_or_underscore (some c) && identTailOk rest

theorem alnum_h_of_identTailChar (c : Char) (h : identTailChar c = true) :
    is_ascii_letter_digit_underscore_or_hyphen (some c) = true := by
  simp only [identTailChar, Bool.or_eq_true, Bool.and_eq_true, decide_eq_true_eq,
    beq_iff_eq] at h
  rcases h with ((hl | hd) | hu) | hh
  · simp [is_ascii_letter_digit_underscore_or_hyphen,
      is_ascii_letter_digit_or_underscore, is_ascii_letter_or_underscore, hl]
  · simp only [is_ascii_letter_digit_underscore_or_hyphen,
      is_ascii_letter_digit_or_underscore, is_digit, pyIsdigitChar,
      Bool.or_eq_true, Bool.and_eq_true, decide_eq_true_eq, beq_iff_eq]
    left
    right
    omega
  · subst hu
    decide
  · subst hh
    decide

theorem alnum_u_of_identTailChar_ne_hyphen (c : Char) (h : identTailChar c = true)
    (hne : ¬ c = '-') : is_ascii_letter_digit_or_underscore (some c) = true := by
  simp only [identTailChar, Bool.or_eq_true, Bool.and_eq_true, decide_eq_true_eq,
    beq_iff_eq] at h
  rcases h with ((hl | hd) | hu) | hh
  · simp [is_ascii_letter_digit_or_underscore, is_ascii_letter_or_underscore, hl]
  · simp only [is_ascii_letter_digit_or_underscore, is_digit, pyIsdigitChar,
      Bool.or_eq_true, Bool.and_eq_true, decide_eq_true_eq, beq_iff_eq]
    right
    omega
  · subst hu
    decide
  · exact absurd hh hne

/-- The identifier scanning loop consumes a valid tail entirely: it returns
normally with every remaining character appended, ending at end of stream. -/
theorem read_identifier_loop_value (l : Lexer) (chars : List Char)
    (hok : identTailOk (l.stream.drop l.offset) = true) :
    (read_identifier_loop l chars).1 =
      Except.ok (chars ++ l.stream.drop l.offset) := by
  induction l, chars using read_identifier_loop.induct with
  | case1 l chars h =>
      rw [read_identifier_loop, dif_pos h]
      simp only [at_eof, decide_eq_true_eq] at h
      rw [List.drop_eq_nil_of_le h, List.append_nil]
  | case2 l chars h h1 h2 ih =>
      rw [read_identifier_loop, dif_neg h, if_pos h1, if_pos h2]
      have hd := drop_cons_of_index l.stream l.offset '-' h1
      rw [hd] at hok
      simp only [identTailOk, if_pos rfl, Bool.and_eq_true] at hok
      have hok2 : identTailOk (l.stream.drop (l.offset + 1)) = true := hok.2
      have := ih (by rw [pop_char_stream, pop_char_offset]; exact hok2)
      rw [this, hd]
      rw [pop_char_stream, pop_char_offset]
      simp
  | case3 l chars h h1 h2 =>
      exfalso
      have hd := drop_cons_of_index l.stream l.offset '-' h1
      rw [hd] at hok
      simp only [identTailOk, if_pos rfl, Bool.and_eq_true] at hok
      rcases hm : l.stream.drop (l.offset + 1) with _ | ⟨d, t⟩
      · rw [hm] at hok
        simp at hok
      · rw [hm] at hok
        have hdc : identTailChar d = true := by
          have := hok.1.2
          simpa using this
        have hp2 : peek2_char l = some d := index_of_drop_cons _ _ _ _ hm
        rw [hp2] at h2
        exact h2 (alnum_h_of_identTailChar d hdc)
  | case4 l chars h h1 h2 ih =>
      rw [read_identifier_loop, dif_neg h, if_neg h1, if_pos h2]
      rcases hg : peek_char l with _ | c
      · rw [peek_char] at hg
        simp only [at_eof, decide_eq_true_eq] at h
        rw [List.get?_eq_none] at hg
        omega
      · have hd := drop_cons_of_index l.stream l.offset c hg
        rw [hd] at hok
        have hcne : ¬ c = '-' := by
          intro hc
          subst hc
          exact h1 hg
        simp only [identTailOk, if_neg hcne, Bool.and_eq_true] at hok
        have hok2 : identTailOk (l.stream.drop (l.offset + 1)) = true := hok.2
        have := ih (by rw [pop_char_stream, pop_char_offset]; exact hok2)
        rw [hg] at this
        rw [pop_char_stream, pop_char_offset] at this
        rw [this, hd]
        simp
  | case5 l chars h h1 h2 =>
      exfalso
      rcases hg : peek_char l with _ | c
      · rw [peek_char] at hg
        simp only [at_eof, decide_eq_true_eq] at h
        rw [List.get?_eq_none] at hg
        omega
      · have hd := drop_cons_of_index l.stream l.offset c hg
        rw [hd] at hok
        have hcne : ¬ c = '-' := by
          intro hc
          subst hc
          exact h1 hg
        simp only [identTailOk, if_neg hcne, Bool.and_eq_true] at hok
        rw [hg] at h2
        exact h2 (alnum_u_of_identTailChar_ne_hyphen c (by simpa using hok.1.1) hcne)

/-- When the identifier scanning loop returns normally, the next unconsumed
character (if any) cannot extend the identifier. -/
theorem read_identifier_loop_final (l : Lexer) (chars v : List Char) (l2 : Lexer)
    (h : read_identifier_loop l chars = (Except.ok v, l2)) :
    at_eof l2 = true ∨
      is_ascii_letter_digit_underscore_or_hyphen (peek_char l2) = false := by
  induction l, chars using read_identifier_loop.induct generalizing v l2 with
  | case1 l chars hh =>
      rw [read_identifier_loop, dif_pos hh, Prod.mk.injEq] at h
      rw [← h.2]
      exact Or.inl hh
  | case2 l chars hh h1 h2 ih =>
      rw [read_identifier_loop, dif_neg hh, if_pos h1, if_pos h2] at h
      exact ih _ _ h
  | case3 l chars hh h1 h2 =>
      rw [read_identifier_loop, dif_neg hh, if_pos h1, if_neg h2, Prod.mk.injEq] at h
      exact absurd h.1 (by simp)
  | case4 l chars hh h1 h2 ih =>
      rw [read_identifier_loop, dif_neg hh, if_neg h1, if_pos h2] at h
      exact ih _ _ h
  | case5 l chars hh h1 h2 =>
      rw [read_identifier_loop, dif_neg hh, if_neg h1, if_neg h2, Prod.mk.injEq] at h
      rw [← h.2]
      right
      simp only [is_ascii_letter_digit_underscore_or_hyphen, Bool.or_eq_false_iff]
      constructor
      · simpa using h2
      · simpa using h1

/-- The scenario input of the spec: a comment line, then `sujeito: "Eu";`. -/
def c1Input : List Char :=
  ['-', '-', ' ', 'T', 'h', 'i', 's', ' ', 'i', 's', ' ', 'a', ' ',
   'c', 'o', 'm', 'm', 'e', 'n', 't', '.', '\n',
   's', 'u', 'j', 'e', 'i', 't', 'o', ':', ' ', '"', 'E', 'u', '"', ';']

/-- The error-scenario input `1sujeito`. -/
def c5Input : List Char := ['1', 's', 'u', 'j', 'e', 'i', 't', 'o']

section Claims

/-- Claim C1 (code_bug evidence): on the scenario input, the first call of
`read_next_token` returns the COMMENT token (with the comment text landing
in the dataclass slots of `mkToken2`), the second returns the IDENTIFIER
token for `sujeito`, and the third call -- which should produce a COLON
token -- raises `TypeError`, because `read_symbol` executes the
one-positional-argument call `Token(TokenKind.COLON)` against a `Token`
dataclass whose required fields are `(position, kind)`. -/
theorem C1_scenario_trace :
    (read_next_token (initLexer c1Input)).1 =
        Except.ok (mkToken2 TokenKind.COMMENT
          [' ', 'T', 'h', 'i', 's', ' ', 'i', 's', ' ', 'a', ' ',
           'c', 'o', 'm', 'm', 'e', 'n', 't', '.']) ∧
      (read_next_token (read_next_token (initLexer c1Input)).2).1 =
        Except.ok (mkToken2 TokenKind.IDENTIFIER
          ['s', 'u', 'j', 'e', 'i', 't', 'o']) ∧
      (read_next_token (read_next_token
          (read_next_token (initLexer c1Input)).2).2).1 =
        Except.error PyErr.typeErrorMissingKind := by
  refine ⟨?_, ?_, ?_⟩ <;>
    simp [read_next_token, read_comment, read_comment_loop, read_identifier,
      read_identifier_loop, read_string, read_string_loop, read_escape_char,
      read_symbol, skip_whitespace, next_char, pop_char, peek_char, peek2_char,
      at_eof, initLexer, c1Input, is_ascii_letter_or_underscore, is_ascii_letter,
      is_ascii_letter_digit_or_underscore, is_ascii_letter_digit_underscore_or_hyphen,
      is_digit, pyIsdigitChar, py_isspace, pyIsspaceChar, in_symbols, symbols,
      mkToken1, mkToken2]

/-- Claim C2 (code_bug evidence): a successful `read_identifier` call on
input `a` returns a token whose `position` field holds the `TokenKind`
(not a `Position`), whose `kind` field holds the scanned string (not a
`TokenKind`), and whose `value` field is empty -- the two-positional-argument
call `Token(TokenKind.IDENTIFIER, value)` binds the dataclass fields
`(position, kind, value)` in declaration order. -/
theorem C2_token_fields :
    (read_identifier (initLexer ['a'])).1 =
        Except.ok ⟨PyVal.vkind TokenKind.IDENTIFIER, PyVal.vstr ['a'],
          PyVal.vstr []⟩ ∧
      (∀ p : Position,
        (mkToken2 TokenKind.IDENTIFIER ['a']).position ≠ PyVal.vpos p) ∧
      (∀ k : TokenKind,
        (mkToken2 TokenKind.IDENTIFIER ['a']).kind ≠ PyVal.vkind k) ∧
      (mkToken2 TokenKind.IDENTIFIER ['a']).value = PyVal.vstr [] := by
  refine ⟨?_, ?_, ?_, rfl⟩
  · simp [read_identifier, read_identifier_loop, next_char, pop_char, peek_char,
      peek2_char, at_eof, initLexer, is_ascii_letter_or_underscore, is_ascii_letter,
      is_ascii_letter_digit_or_underscore, is_ascii_letter_digit_underscore_or_hyphen,
      is_digit, pyIsdigitChar, mkToken2]
  · intro p
    simp [mkToken2]
  · intro k
    simp [mkToken2]

/-- Claim C3 (code_bug evidence): at end of stream `read_next_token` does
not return an EOF token; the call `Token(TokenKind.EOF)` raises `TypeError`
because the `Token` dataclass requires both `position` and `kind`.  The
lexer state is left unchanged, so repeated calls keep raising. -/
theorem C3_eof_raises_type_error (l : Lexer) (h : at_eof l = true) :
    read_next_token l = (Except.error PyErr.typeErrorMissingKind, l) := by
  rw [read_next_token, dif_pos h]
  rfl

/-- Witness for C3 at the empty input. -/
theorem C3_eof_raises_type_error_witness :
    read_next_token (initLexer []) =
      (Except.error PyErr.typeErrorMissingKind, initLexer []) :=
  C3_eof_raises_type_error (initLexer []) (by decide)

/-- Claim C4 counterexample: `pop_char` on a fresh empty-input Lexer (a
public operation named by the claim) pushes the offset to 1 while the
length is 0, violating `offset ≤ length`. -/
theorem C4_counterexample :
    ¬ ((pop_char (initLexer [])).offset ≤
        (pop_char (initLexer [])).stream.length) := by
  decide

/-- Claim C4 (amended): after every sequence of public operations from a
fresh Lexer, `line ≥ 1`, `column ≥ 1` and the equivalence of `at_eof` with
`offset ≥ length` hold; `offset ≤ length` is preserved by every operation
except a bare `pop_char` issued at end of stream. -/
theorem C4_invariants :
    (∀ (ops : List LexOp) (s : List Char),
      1 ≤ (runOps ops (initLexer s)).line ∧
      1 ≤ (runOps ops (initLexer s)).column ∧
      (at_eof (runOps ops (initLexer s)) = true ↔
        (runOps ops (initLexer s)).stream.length ≤
          (runOps ops (initLexer s)).offset)) ∧
    (∀ (l : Lexer) (op : LexOp),
      l.offset ≤ l.stream.length →
      (op = LexOp.pop → l.offset < l.stream.length) →
      (applyOp op l).offset ≤ (applyOp op l).stream.length) := by
  constructor
  · intro ops s
    have hp := runOps_progress ops (initLexer s)
    refine ⟨hp.2.2.1, hp.2.2.2 (Nat.le_refl 1), ?_⟩
    simp [at_eof]
  · intro l op hb hpop
    have hs := (applyOp_progress op l).1
    rw [hs]
    by_cases hop : op = LexOp.pop
    · subst hop
      have := pop_char_offset l
      have hlt := hpop rfl
      simp only [applyOp]
      omega
    · exact applyOp_bounded op l hop hb

/-- Witness for C4 at concrete inputs. -/
theorem C4_invariants_witness :
    (1 ≤ (runOps [LexOp.readNext, LexOp.pop] (initLexer ['a'])).line ∧
      1 ≤ (runOps [LexOp.readNext, LexOp.pop] (initLexer ['a'])).column ∧
      (at_eof (runOps [LexOp.readNext, LexOp.pop] (initLexer ['a'])) = true ↔
        (runOps [LexOp.readNext, LexOp.pop] (initLexer ['a'])).stream.length ≤
          (runOps [LexOp.readNext, LexOp.pop] (initLexer ['a'])).offset)) ∧
    (applyOp LexOp.pop (initLexer ['a'])).offset ≤
      (applyOp LexOp.pop (initLexer ['a'])).stream.length :=
  ⟨C4_invariants.1 [LexOp.readNext, LexOp.pop] ['a'],
   C4_invariants.2 (initLexer ['a']) LexOp.pop (by decide) (fun _ => by decide)⟩

/-- Claim C5 counterexample: on input `1sujeito`, the first call of
`read_next_token` raises the dispatcher's "unexpected character" error at
line 1, column 1 -- not the identifier scanner's leading-digit error at
column 2, because the dispatch only calls `read_identifier` when the
lookahead is a letter or underscore. -/
theorem C5_counterexample :
    (read_next_token (initLexer c5Input)).1 =
        Except.error (PyErr.lexer (LexErrMsg.unexpectedChar (some '1')) 1 1) ∧
      (read_next_token (initLexer c5Input)).1 ≠
        Except.error (PyErr.lexer (LexErrMsg.identStartDigit (some '1')) 1 2) := by
  have h : (read_next_token (initLexer c5Input)).1 =
      Except.error (PyErr.lexer (LexErrMsg.unexpectedChar (some '1')) 1 1) := by
    simp [read_next_token, initLexer, c5Input, at_eof, peek_char,
      is_ascii_letter_or_underscore, is_ascii_letter, py_isspace, pyIsspaceChar,
      in_symbols, symbols]
  exact ⟨h, by rw [h]; simp⟩

/-- Claim C5 (amended): on input `1sujeito` the dispatcher raises
"unexpected character" at line 1 column 1; the leading-digit identifier
error at line 1 column 2 (the cursor one past the offending digit) is
raised when `read_identifier` itself is invoked on this input. -/
theorem C5_amended :
    (read_identifier (initLexer c5Input)).1 =
        Except.error (PyErr.lexer (LexErrMsg.identStartDigit (some '1')) 1 2) ∧
      (read_next_token (initLexer c5Input)).1 =
        Except.error (PyErr.lexer (LexErrMsg.unexpectedChar (some '1')) 1 1) := by
  constructor
  · simp [read_identifier, next_char, pop_char, initLexer, c5Input,
      is_digit, pyIsdigitChar]
  · simp [read_next_token, initLexer, c5Input, at_eof, peek_char,
      is_ascii_letter_or_underscore, is_ascii_letter, py_isspace, pyIsspaceChar,
      in_symbols, symbols]

/-- Claim C6 counterexample: on the fresh Lexer over `ab`, newline, `c`
advanced by one `pop_char`, the character at the current offset is `b`
(not a newline), yet the next `pop_char` resets the column to 1 and
increments the line, because `pop_char` looks at the character *after*
the advance. -/
theorem C6_counterexample :
    (initLexer ['a', 'b', '\n', 'c']).stream.get?
        (pop_char (initLexer ['a', 'b', '\n', 'c'])).offset = some 'b' ∧
      ¬ ((pop_char (pop_char (initLexer ['a', 'b', '\n', 'c']))).column =
            (pop_char (initLexer ['a', 'b', '\n', 'c'])).column + 1 ∧
          (pop_char (pop_char (initLexer ['a', 'b', '\n', 'c']))).line =
            (pop_char (initLexer ['a', 'b', '\n', 'c'])).line) := by
  decide

/-- Claim C6 (amended): `pop_char` advances the column by exactly 1 and
leaves the line unchanged precisely when the character at the *new* offset
(one past the consumed character) is absent or not a newline; when that
upcoming character is a newline, the position already reports column 1 and
line incremented -- the look-ahead rule of the source. -/
theorem C6_pop_char_lookahead (l : Lexer) :
    (¬ l.stream.get? (l.offset + 1) = some '\n' →
      (pop_char l).column = l.column + 1 ∧ (pop_char l).line = l.line) ∧
    (l.stream.get? (l.offset + 1) = some '\n' →
      (pop_char l).column = 1 ∧ (pop_char l).line = l.line + 1) := by
  constructor
  · intro h
    rw [pop_char, if_neg h]
    exact ⟨rfl, rfl⟩
  · intro h
    rw [pop_char, if_pos h]
    exact ⟨rfl, rfl⟩

/-- Witness for C6 on both branches. -/
theorem C6_pop_char_lookahead_witness :
    ((pop_char (initLexer ['a', 'b'])).column =
        (initLexer ['a', 'b']).column + 1 ∧
      (pop_char (initLexer ['a', 'b'])).line = (initLexer ['a', 'b']).line) ∧
    ((pop_char (initLexer ['a', '\n'])).column = 1 ∧
      (pop_char (initLexer ['a', '\n'])).line =
        (initLexer ['a', '\n']).line + 1) :=
  ⟨(C6_pop_char_lookahead (initLexer ['a', 'b'])).1 (by decide),
   (C6_pop_char_lookahead (initLexer ['a', '\n'])).2 (by decide)⟩

/-- Claim C7 counterexample: `is_digit` is Python's `str.isdigit`, which
accepts the non-ASCII superscript-two character U+00B2: it returns true
for a character that is not an ASCII decimal digit. -/
theorem C7_counterexample :
    is_digit (some '²') = true ∧ 128 ≤ ('²').toNat ∧
      ¬ (48 ≤ ('²').toNat ∧ ('²').toNat ≤ 57) := by
  decide

/-- Claim C7 (amended): on ASCII characters `is_digit` is true exactly for
`0`..`9`, and it is false on the empty string; but it also accepts
non-ASCII Unicode digit characters such as U+00B2. -/
theorem C7_is_digit_ascii :
    (∀ c : Char, c.toNat < 128 →
      (is_digit (some c) = true ↔ (48 ≤ c.toNat ∧ c.toNat ≤ 57))) ∧
    is_digit none = false ∧ is_digit (some '²') = true := by
  refine ⟨?_, rfl, by decide⟩
  intro c h
  simp only [is_digit, pyIsdigitChar, Bool.or_eq_true, Bool.and_eq_true,
    decide_eq_true_eq, beq_iff_eq]
  omega

/-- Witness for C7 at the ASCII digit `7` and the letter `x`. -/
theorem C7_is_digit_ascii_witness :
    (is_digit (some '7') = true ↔ (48 ≤ ('7').toNat ∧ ('7').toNat ≤ 57)) ∧
    (is_digit (some 'x') = true ↔ (48 ≤ ('x').toNat ∧ ('x').toNat ≤ 57)) :=
  ⟨C7_is_digit_ascii.1 '7' (by decide), C7_is_digit_ascii.1 'x' (by decide)⟩

/-- Claim C8 (code_bug evidence): for every input that is a valid
identifier per the claim (letter/underscore first; letters, digits,
underscores, hyphens after; every hyphen followed by another identifier
character), `read_identifier` returns normally and the token it builds is
`Token(TokenKind.IDENTIFIER, s)` -- whose dataclass `value` field is the
empty default, the scanned text landing in the `kind` field instead. -/
theorem C8_identifier_roundtrip (s : List Char)
    (hv : validIdentInput s = true) :
    (read_identifier (initLexer s)).1 =
      Except.ok (mkToken2 TokenKind.IDENTIFIER s) := by
  rcases s with _ | ⟨c, rest⟩
  · simp [validIdentInput] at hv
  · simp only [validIdentInput, Bool.and_eq_true] at hv
    obtain ⟨hc, ht⟩ := hv
    have hdig := is_digit_eq_false_of_letter_or_underscore c hc
    have hhy := ne_hyphen_of_letter_or_underscore c hc
    have hn1 : (next_char (initLexer (c :: rest))).1 = some c := rfl
    have hn2 : (next_char (initLexer (c :: rest))).2 =
        pop_char (initLexer (c :: rest)) := rfl
    have hok : identTailOk ((pop_char (initLexer (c :: rest))).stream.drop
        (pop_char (initLexer (c :: rest))).offset) = true := by
      rw [pop_char_stream, pop_char_offset]
      exact ht
    have hval := read_identifier_loop_value (pop_char (initLexer (c :: rest)))
      (some c).toList hok
    rw [pop_char_stream, pop_char_offset] at hval
    have hd1 : (initLexer (c :: rest)).stream.drop
        ((initLexer (c :: rest)).offset + 1) = rest := rfl
    rw [hd1] at hval
    simp only [read_identifier, hn1, hn2, hdig, hhy, Bool.false_eq_true,
      reduceIte]
    rcases hm : read_identifier_loop (pop_char (initLexer (c :: rest)))
        (some c).toList with ⟨r, l3⟩
    rw [hm] at hval
    rcases r with e | chars
    · simp at hval
    · simp only at hval
      rw [Except.ok.injEq] at hval
      subst hval
      simp

/-- Witness for C8 on the input `objeto-direto-a` (a test input of the
repository). -/
theorem C8_identifier_roundtrip_witness :
    validIdentInput
        ['o', 'b', 'j', 'e', 't', 'o', '-', 'd', 'i', 'r', 'e', 't', 'o',
         '-', 'a'] = true ∧
      (read_identifier (initLexer
          ['o', 'b', 'j', 'e', 't', 'o', '-', 'd', 'i', 'r', 'e', 't', 'o',
           '-', 'a'])).1 =
        Except.ok (mkToken2 TokenKind.IDENTIFIER
          ['o', 'b', 'j', 'e', 't', 'o', '-', 'd', 'i', 'r', 'e', 't', 'o',
           '-', 'a']) :=
  ⟨by decide, C8_identifier_roundtrip _ (by decide)⟩

/-- Claim C9: the cursor only moves forward.  Every public operation --
also when it raises, since `applyOp` keeps the state a raising reader left
behind -- yields an offset and a line at least as large as before, and so
does every sequence of such operations. -/
theorem C9_cursor_monotone :
    ∀ (op : LexOp) (l : Lexer),
      (l.offset ≤ (applyOp op l).offset ∧ l.line ≤ (applyOp op l).line) ∧
      ∀ ops : List LexOp,
        l.offset ≤ (runOps ops l).offset ∧ l.line ≤ (runOps ops l).line := by
  intro op l
  constructor
  · exact ⟨(applyOp_progress op l).2.1, (applyOp_progress op l).2.2.1⟩
  · intro ops
    exact ⟨(runOps_progress ops l).2.1, (runOps_progress ops l).2.2.1⟩

/-- Claim C10: `read_identifier` is maximal.  Whenever it returns
normally, the lexer is at end of stream or the next unconsumed character
is not an ASCII letter, digit, underscore or hyphen. -/
theorem C10_identifier_greedy (l l2 : Lexer) (t : PyToken)
    (h : read_identifier l = (Except.ok t, l2)) :
    at_eof l2 = true ∨
      is_ascii_letter_digit_underscore_or_hyphen (peek_char l2) = false := by
  simp only [read_identifier] at h
  split_ifs at h with h1 h2
  · simp at h
  · simp at h
  · rcases hm : read_identifier_loop (next_char l).2 (next_char l).1.toList
        with ⟨r, l3⟩
    rw [hm] at h
    rcases r with e | chars
    · simp at h
    · simp only [Prod.mk.injEq] at h
      obtain ⟨-, h4⟩ := h
      subst h4
      exact read_identifier_loop_final _ _ _ _ hm

/-- Witness for C10 on the input `verbo@`. -/
theorem C10_identifier_greedy_witness :
    at_eof (⟨['v', 'e', 'r', 'b', 'o', '@'], 5, 1, 6⟩ : Lexer) = true ∨
      is_ascii_letter_digit_underscore_or_hyphen
        (peek_char (⟨['v', 'e', 'r', 'b', 'o', '@'], 5, 1, 6⟩ : Lexer)) = false :=
  C10_identifier_greedy (initLexer ['v', 'e', 'r', 'b', 'o', '@'])
    ⟨['v', 'e', 'r', 'b', 'o', '@'], 5, 1, 6⟩
    (mkToken2 TokenKind.IDENTIFIER ['v', 'e', 'r', 'b', 'o'])
    (by simp [read_identifier, read_identifier_loop, next_char, pop_char,
      peek_char, peek2_char, at_eof, initLexer, is_digit, pyIsdigitChar,
      is_ascii_letter_digit_or_underscore, is_ascii_letter_or_underscore,
      is_ascii_letter, is_ascii_letter_digit_underscore_or_hyphen, mkToken2])

end Claims

end Tinta
